import Mathlib

/-!
Verification development for the AWS ECS microservices deployment example.

The repository declares a two-service Fargate deployment behind one
application load balancer: a `uniqWith` deduplicator collapses duplicate
ACM DNS-validation challenges before creating Route53 records and
validation waits, an HTTPS listener forwards to the target
group of the primary service with one path rule for the api service, explicit `dependsOn`
edges order service creation after listeners and rules, and each service
gets a scaling target (1..10) with a downscale-only step policy.
This file embeds those parts and proves the specified properties.
-/

namespace AwsEcsMicroservices

/-! ### The validation-challenge data and the dedup comparator

`CertificateDomainValidationOption` mirrors the fields of the
`@pulumi/aws` certificate validation option consumed at
`certificate.domainValidationOptions.apply` in the source. -/

structure CertificateDomainValidationOption where
  domainName : String
  resourceRecordName : String
  resourceRecordType : String
  resourceRecordValue : String
deriving DecidableEq

/-- The comparator passed to `uniqWith` in the source: record type, record
value and record name must all be equal (`===` conjunction, in that order). -/
def validationOptionEq (x y : CertificateDomainValidationOption) : Bool :=
  x.resourceRecordType == y.resourceRecordType &&
  x.resourceRecordValue == y.resourceRecordValue &&
  x.resourceRecordName == y.resourceRecordName

/-- The (record type, record name, record value) triple of a challenge. -/
def challengeKey (x : CertificateDomainValidationOption) : String × String × String :=
  (x.resourceRecordType, x.resourceRecordName, x.resourceRecordValue)

/-! ### The Validation Record Deduplicator

Source (both deployment stages):
`const uniqWith = (arr, fn) => arr.filter((element, index) => arr.findIndex((step) => fn(element, step)) === index);`

`arr.filter` with the element index is embedded via `List.enum`;
the JavaScript `findIndex` returns `-1` when nothing matches while the Lean
`findIdx` returns `arr.length`, and both disagree with every valid element
index, so the two translate to the same kept set. -/

def uniqWith (arr : List α) (fn : α → α → Bool) : List α :=
  (arr.enum.filter (fun p => arr.findIdx (fun step => fn p.2 step) == p.1)).map Prod.snd

/-- Recursive characterization of `uniqWith`, used as the workhorse for proofs. -/
def uniqWithRec (fn : α → α → Bool) : List α → List α
  | [] => []
  | x :: xs => (if fn x x then [x] else []) ++ (uniqWithRec fn xs).filter fun y => !(fn y x)

/-- The description of the output given by the specification, transcribed from its words:
the subsequence of elements that have no earlier equal occurrence, in input
order ("the subsequence of first occurrences, preserving input order"). -/
def specFirstOccurrences (eqv : α → α → Bool) (l : List α) : List α :=
  (l.enum.filter (fun p => !((l.take p.1).any fun y => eqv y p.2))).map Prod.snd

theorem enumFrom_succ_map (l : List α) (n : Nat) :
    l.enumFrom (n + 1) = (l.enumFrom n).map fun p => (p.1 + 1, p.2) := by
  induction l generalizing n with
  | nil => rfl
  | cons a l ih => simp [List.enumFrom, ih (n + 1)]

theorem enum_cons_eq (x : α) (xs : List α) :
    (x :: xs).enum = (0, x) :: (xs.enum.map fun p => (p.1 + 1, p.2)) := by
  show List.enumFrom 0 (x :: xs) = _
  rw [List.enumFrom]
  rw [show xs.enumFrom 1 = xs.enumFrom (0 + 1) from rfl, enumFrom_succ_map]
  rfl

theorem succ_beq_succ_eq (a b : Nat) : (a + 1 == b + 1) = (a == b) := by
  cases h : a == b
  · rw [beq_eq_false_iff_ne] at h
    rw [beq_eq_false_iff_ne]
    omega
  · rw [beq_iff_eq] at h
    subst h
    simp

theorem zero_beq_succ_eq (b : Nat) : (0 == b + 1) = false := by
  rw [beq_eq_false_iff_ne]
  omega

theorem succ_beq_zero_eq (a : Nat) : (a + 1 == 0) = false := by
  rw [beq_eq_false_iff_ne]
  omega

theorem uniqWith_nil (fn : α → α → Bool) : uniqWith [] fn = [] := rfl

theorem uniqWith_cons (fn : α → α → Bool) (x : α) (xs : List α) :
    uniqWith (x :: xs) fn =
      (if fn x x then [x] else []) ++ (uniqWith xs fn).filter fun y => !(fn y x) := by
  have hhead : ((x :: xs).findIdx (fun step => fn x step) == 0) = fn x x := by
    rw [List.findIdx_cons]
    cases hxx : fn x x
    · rw [cond_false, succ_beq_zero_eq]
    · rw [cond_true]
      rfl
  have hpred : ∀ p : Nat × α,
      ((x :: xs).findIdx (fun step => fn p.2 step) == p.1 + 1) =
        ((!(fn p.2 x)) && (xs.findIdx (fun step => fn p.2 step) == p.1)) := by
    intro p
    rw [List.findIdx_cons]
    cases hpx : fn p.2 x
    · rw [cond_false, succ_beq_succ_eq, Bool.not_false, Bool.true_and]
    · rw [cond_true, zero_beq_succ_eq, Bool.not_true, Bool.false_and]
  unfold uniqWith
  rw [enum_cons_eq, List.filter_cons, List.filter_map, hhead]
  have hfilters :
      List.filter ((fun p : Nat × α => (x :: xs).findIdx (fun step => fn p.2 step) == p.1) ∘
          fun p : Nat × α => (p.1 + 1, p.2)) xs.enum =
        List.filter ((fun y => !(fn y x)) ∘ Prod.snd)
          (List.filter (fun p : Nat × α => xs.findIdx (fun step => fn p.2 step) == p.1)
            xs.enum) := by
    rw [List.filter_filter]
    exact List.filter_congr fun p _ => hpred p
  rw [hfilters, List.filter_map]
  have hsnd : (Prod.snd ∘ fun p : Nat × α => (p.1 + 1, p.2)) = (Prod.snd : Nat × α → α) :=
    funext fun _ => rfl
  cases hxx : fn x x
  · rw [if_neg Bool.false_ne_true, if_neg Bool.false_ne_true, List.nil_append,
      List.map_map, hsnd]
  · rw [if_pos rfl, if_pos rfl, List.map_cons, List.map_map, hsnd, List.singleton_append]

theorem uniqWith_eq_rec (fn : α → α → Bool) (l : List α) :
    uniqWith l fn = uniqWithRec fn l := by
  induction l with
  | nil => rfl
  | cons x xs ih =>
    rw [uniqWith_cons, ih]
    rfl

theorem specFirstOccurrences_cons (eqv : α → α → Bool) (x : α) (xs : List α) :
    specFirstOccurrences eqv (x :: xs) =
      x :: (specFirstOccurrences eqv xs).filter fun y => !(eqv x y) := by
  have hpred : ∀ p : Nat × α,
      (!(((x :: xs).take (p.1 + 1)).any fun y => eqv y p.2)) =
        ((!(eqv x p.2)) && !((xs.take p.1).any fun y => eqv y p.2)) := by
    intro p
    rw [List.take_succ_cons, List.any_cons, Bool.not_or]
  unfold specFirstOccurrences
  rw [enum_cons_eq, List.filter_cons, List.filter_map]
  have hfilters :
      List.filter ((fun p : Nat × α => !(((x :: xs).take p.1).any fun y => eqv y p.2)) ∘
          fun p : Nat × α => (p.1 + 1, p.2)) xs.enum =
        List.filter ((fun y => !(eqv x y)) ∘ Prod.snd)
          (List.filter (fun p : Nat × α => !((xs.take p.1).any fun y => eqv y p.2))
            xs.enum) := by
    rw [List.filter_filter]
    exact List.filter_congr fun p _ => hpred p
  rw [hfilters, List.filter_map]
  have hsnd : (Prod.snd ∘ fun p : Nat × α => (p.1 + 1, p.2)) = (Prod.snd : Nat × α → α) :=
    funext fun _ => rfl
  rw [if_pos (show (!(((x :: xs).take ((0, x) : Nat × α).1).any fun y => eqv y ((0, x) : Nat × α).2)) = true from rfl),
    List.map_cons, List.map_map, hsnd]

theorem specFirstOccurrences_eq_rec (eqv : α → α → Bool)
    (hrefl : ∀ a, eqv a a = true) (hsymm : ∀ a b, eqv a b = eqv b a) (l : List α) :
    specFirstOccurrences eqv l = uniqWithRec eqv l := by
  induction l with
  | nil => rfl
  | cons x xs ih =>
    rw [specFirstOccurrences_cons, ih]
    show _ = (if eqv x x then [x] else []) ++ _
    rw [hrefl x]
    simp only [if_true, List.singleton_append]
    congr 1
    apply List.filter_congr
    intro y _
    rw [hsymm x y]

theorem uniqWithRec_cons (fn : α → α → Bool) (x : α) (xs : List α) :
    uniqWithRec fn (x :: xs) =
      (if fn x x then [x] else []) ++ (uniqWithRec fn xs).filter fun y => !(fn y x) := rfl

theorem validationOptionEq_refl (x : CertificateDomainValidationOption) :
    validationOptionEq x x = true := by
  simp [validationOptionEq]

theorem validationOptionEq_true_iff (x y : CertificateDomainValidationOption) :
    validationOptionEq x y = true ↔ challengeKey x = challengeKey y := by
  unfold validationOptionEq challengeKey
  simp only [Bool.and_eq_true, beq_iff_eq, Prod.mk.injEq]
  tauto

theorem validationOptionEq_symm (x y : CertificateDomainValidationOption) :
    validationOptionEq x y = validationOptionEq y x := by
  cases h2 : validationOptionEq y x
  · cases h1 : validationOptionEq x y
    · rfl
    · rw [validationOptionEq_true_iff] at h1
      have h3 := (validationOptionEq_true_iff y x).mpr h1.symm
      rw [h2] at h3
      exact absurd h3 Bool.false_ne_true
  · exact (validationOptionEq_true_iff x y).mpr ((validationOptionEq_true_iff y x).mp h2).symm

theorem uniqWithRec_cons_refl (x : CertificateDomainValidationOption)
    (xs : List CertificateDomainValidationOption) :
    uniqWithRec validationOptionEq (x :: xs) =
      x :: (uniqWithRec validationOptionEq xs).filter fun y => !(validationOptionEq y x) := by
  rw [uniqWithRec_cons, validationOptionEq_refl, if_pos rfl, List.singleton_append]

theorem uniqWithRec_keys_nodup (l : List CertificateDomainValidationOption) :
    ((uniqWithRec validationOptionEq l).map challengeKey).Nodup := by
  induction l with
  | nil => exact List.nodup_nil
  | cons x xs ih =>
    rw [uniqWithRec_cons_refl, List.map_cons, List.nodup_cons]
    constructor
    · intro hmem
      rcases List.mem_map.mp hmem with ⟨y, hy, hky⟩
      rcases List.mem_filter.mp hy with ⟨_, hne⟩
      rw [Bool.not_eq_true'] at hne
      have hveq : validationOptionEq y x = true :=
        (validationOptionEq_true_iff y x).mpr (hky ▸ rfl)
      rw [hne] at hveq
      exact absurd hveq Bool.false_ne_true
    · exact List.Pairwise.sublist ((List.filter_sublist _).map challengeKey) ih

theorem mem_map_key_uniqWithRec (l : List CertificateDomainValidationOption)
    (k : String × String × String) :
    k ∈ (uniqWithRec validationOptionEq l).map challengeKey ↔ k ∈ l.map challengeKey := by
  induction l with
  | nil => exact Iff.rfl
  | cons x xs ih =>
    rw [uniqWithRec_cons_refl, List.map_cons, List.map_cons, List.mem_cons, List.mem_cons]
    constructor
    · rintro (hk | hk)
      · exact Or.inl hk
      · rcases List.mem_map.mp hk with ⟨y, hy, hky⟩
        exact Or.inr (ih.mp (List.mem_map.mpr ⟨y, (List.mem_filter.mp hy).1, hky⟩))
    · rintro (hk | hk)
      · exact Or.inl hk
      · by_cases hkx : k = challengeKey x
        · exact Or.inl hkx
        · rcases List.mem_map.mp (ih.mpr hk) with ⟨y, hy, hky⟩
          refine Or.inr (List.mem_map.mpr ⟨y, List.mem_filter.mpr ⟨hy, ?_⟩, hky⟩)
          cases hveq : validationOptionEq y x
          · rfl
          · exact absurd (hky.symm.trans ((validationOptionEq_true_iff y x).mp hveq)) hkx

theorem uniqWithRec_keys_toFinset (l : List CertificateDomainValidationOption) :
    ((uniqWithRec validationOptionEq l).map challengeKey).toFinset =
      (l.map challengeKey).toFinset := by
  apply Finset.ext
  intro k
  rw [List.mem_toFinset, List.mem_toFinset]
  exact mem_map_key_uniqWithRec l k

theorem uniqWith_length_eq_distinct (l : List CertificateDomainValidationOption) :
    (uniqWith l validationOptionEq).length = ((l.map challengeKey).dedup).length := by
  rw [uniqWith_eq_rec]
  have h1 : (uniqWithRec validationOptionEq l).length =
      ((uniqWithRec validationOptionEq l).map challengeKey).length :=
    (List.length_map _ _).symm
  rw [h1, ← List.toFinset_card_of_nodup (uniqWithRec_keys_nodup l),
    uniqWithRec_keys_toFinset, List.card_toFinset]

theorem uniqWithRec_pairwise_ne (l : List CertificateDomainValidationOption) :
    (uniqWithRec validationOptionEq l).Pairwise
      (fun a b => validationOptionEq a b = false) := by
  have h : (uniqWithRec validationOptionEq l).Pairwise
      (fun a b => challengeKey a ≠ challengeKey b) :=
    List.pairwise_map.mp (uniqWithRec_keys_nodup l)
  refine h.imp ?_
  intro a b hne
  cases hveq : validationOptionEq a b
  · rfl
  · exact absurd ((validationOptionEq_true_iff a b).mp hveq) hne

theorem uniqWithRec_of_pairwise (m : List CertificateDomainValidationOption)
    (h : m.Pairwise fun a b => validationOptionEq a b = false) :
    uniqWithRec validationOptionEq m = m := by
  induction m with
  | nil => rfl
  | cons x xs ih =>
    rw [List.pairwise_cons] at h
    rw [uniqWithRec_cons_refl, ih h.2]
    congr 1
    rw [List.filter_eq_self]
    intro y hy
    rw [Bool.not_eq_true', validationOptionEq_symm y x]
    exact h.1 y hy

/-! ### Claims C1 and C3: correctness and idempotence of the deduplicator -/

/-- C1: the Validation Record Deduplicator (`uniqWith` with the triple-equality
comparator) returns exactly the subsequence of first occurrences in input
order, where two challenges compare equal iff their record type, record name
and record value are all equal; consequently the output length equals the
number of distinct (type, name, value) triples in the input. -/
theorem uniqWith_firstOccurrences_distinct_count
    (l : List CertificateDomainValidationOption) :
    uniqWith l validationOptionEq = specFirstOccurrences validationOptionEq l ∧
    (uniqWith l validationOptionEq).length = ((l.map challengeKey).dedup).length := by
  constructor
  · rw [uniqWith_eq_rec,
      specFirstOccurrences_eq_rec validationOptionEq validationOptionEq_refl
        validationOptionEq_symm]
  · exact uniqWith_length_eq_distinct l

/-- C3: the deduplicator is idempotent — applying it to its own output returns
that output unchanged — and no two elements of the output compare equal under
the (type, name, value) comparator. -/
theorem uniqWith_idempotent (l : List CertificateDomainValidationOption) :
    uniqWith (uniqWith l validationOptionEq) validationOptionEq =
      uniqWith l validationOptionEq ∧
    (uniqWith l validationOptionEq).Pairwise
      (fun a b => validationOptionEq a b = false) := by
  constructor
  · calc uniqWith (uniqWith l validationOptionEq) validationOptionEq
        = uniqWithRec validationOptionEq (uniqWith l validationOptionEq) :=
          uniqWith_eq_rec _ _
      _ = uniqWithRec validationOptionEq (uniqWithRec validationOptionEq l) := by
          rw [uniqWith_eq_rec]
      _ = uniqWithRec validationOptionEq l :=
          uniqWithRec_of_pairwise _ (uniqWithRec_pairwise_ne l)
      _ = uniqWith l validationOptionEq := (uniqWith_eq_rec _ _).symm
  · rw [uniqWith_eq_rec]
    exact uniqWithRec_pairwise_ne l

/-! ### Claim C2: the certificate pipeline body

Inside `certificate.domainValidationOptions.apply`, the source deduplicates
the validation options, then `.map`s each retained option (with its index)
to a Route53 record, then `.forEach` registers one `CertificateValidation`
wait per created record, referencing the fqdn of that record. -/

structure Route53RecordArgs where
  type : String
  ttl : Nat
  zoneId : String
  name : String
  records : List String
deriving DecidableEq

structure Route53Record where
  resourceName : String
  args : Route53RecordArgs
deriving DecidableEq

structure CertificateValidationArgs where
  certificateArn : String
  validationRecordFqdns : List String
deriving DecidableEq

/-- The `.map` stage of the pipeline: one Route53 record per retained
(deduplicated) validation option, named by the running index. -/
def certValidationRecords (domain zoneId : String)
    (validationOptions : List CertificateDomainValidationOption) : List Route53Record :=
  ((uniqWith validationOptions validationOptionEq).enum).map fun p =>
    { resourceName := domain ++ "-cert-validation-record-" ++ toString p.1
      args := { type := p.2.resourceRecordType, ttl := 60, zoneId := zoneId,
                name := p.2.resourceRecordName, records := [p.2.resourceRecordValue] } }

/-- The `.forEach` stage: one `CertificateValidation` wait per created record.
The `fqdn` output of a record is its DNS name as Route53 reports it, which
for this embedding is the `name` of the record. -/
def certDnsValidations (domain zoneId certificateArn : String)
    (validationOptions : List CertificateDomainValidationOption) :
    List (String × CertificateValidationArgs) :=
  ((certValidationRecords domain zoneId validationOptions).enum).map fun p =>
    (domain ++ "-cert-dns-validation-" ++ toString p.1,
     { certificateArn := certificateArn, validationRecordFqdns := [p.2.args.name] })

/-- A certificate authority answer with 3 challenges of which 2 are
value-identical (equal (type, name, value) triples). -/
def exampleThreeChallenges : List CertificateDomainValidationOption :=
  [ { domainName := "d", resourceRecordName := "n1",
      resourceRecordType := "CNAME", resourceRecordValue := "v1" },
    { domainName := "d", resourceRecordName := "n1",
      resourceRecordType := "CNAME", resourceRecordValue := "v1" },
    { domainName := "d", resourceRecordName := "n2",
      resourceRecordType := "CNAME", resourceRecordValue := "v2" } ]

/-- C2: for every challenge set returned by the certificate authority, the
certificate pipeline creates exactly one DNS record and registers exactly one
validation wait per distinct (type, name, value) triple; in particular, for an
input of 3 challenges of which 2 are value-identical, exactly 2 DNS records
are created and exactly 2 validation waits are issued. -/
theorem certPipeline_one_record_one_wait_per_distinct
    (domain zoneId certificateArn : String)
    (vo : List CertificateDomainValidationOption) :
    (certValidationRecords domain zoneId vo).length =
      ((vo.map challengeKey).dedup).length ∧
    (certDnsValidations domain zoneId certificateArn vo).length =
      ((vo.map challengeKey).dedup).length ∧
    (certValidationRecords "d" "z" exampleThreeChallenges).length = 2 ∧
    (certDnsValidations "d" "z" "arn" exampleThreeChallenges).length = 2 := by
  have hrec : ∀ d z : String, ∀ l : List CertificateDomainValidationOption,
      (certValidationRecords d z l).length = (uniqWith l validationOptionEq).length := by
    intro d z l
    unfold certValidationRecords
    rw [List.length_map, List.enum_length]
  have hval : ∀ d z a : String, ∀ l : List CertificateDomainValidationOption,
      (certDnsValidations d z a l).length = (certValidationRecords d z l).length := by
    intro d z a l
    unfold certDnsValidations
    rw [List.length_map, List.enum_length]
  refine ⟨?_, ?_, ?_, ?_⟩
  · rw [hrec, uniqWith_length_eq_distinct]
  · rw [hval, hrec, uniqWith_length_eq_distinct]
  · rw [hrec, uniqWith_length_eq_distinct]
    decide
  · rw [hval, hrec, uniqWith_length_eq_distinct]
    decide

/-! ### The deployment graph of the multi-service stage

One constructor per resource (and data source) declared in the
multi-service deployment file. `certValidationRecord i` /
`certDnsValidation i` are the indexed resources created inside the
`domainValidationOptions.apply` callback, one per retained challenge. -/

inductive Res
  | defaultVpc
  | defaultVpcSubnets
  | group
  | alb
  | todoAppTg
  | todoApiTg
  | ecsTaskInitializationRole
  | rpa
  | cluster
  | httpsRedirectListener
  | certificate
  | hostedZone
  | hostedZoneAlbRecord
  | certValidationRecord (i : Nat)
  | certDnsValidation (i : Nat)
  | todoListener
  | todoApiListenerRule
  | ecrRepo
  | todoAppImage
  | todoApiImage
  | allowImageAccess
  | taskExecutionRolePolicyAttachment
  | logGroup
  | todoAppTask
  | todoTable
  | allowTableAccess
  | ecsTaskRole
  | allowTableAccessPolicyAttachment
  | todoApiTask
  | todoAppService
  | todoApiService
  | todoAppScalingTarget
  | todoAppScalingPolicy
  | todoApiScalingTarget
  | todoApiScalingPolicy
deriving DecidableEq

/-- The "must exist before" edges of the multi-service stage: for each
resource, the resources whose output handles its declaration references,
plus its explicit `dependsOn` list (the two services name their listeners
and, for the api service, its listener rule). -/
def deps : Res → List Res
  | .defaultVpc => []
  | .defaultVpcSubnets => [.defaultVpc]
  | .group => [.defaultVpc]
  | .alb => [.group, .defaultVpcSubnets]
  | .todoAppTg => [.defaultVpc]
  | .todoApiTg => [.defaultVpc]
  | .ecsTaskInitializationRole => []
  | .rpa => [.ecsTaskInitializationRole]
  | .cluster => []
  | .httpsRedirectListener => [.alb]
  | .certificate => []
  | .hostedZone => []
  | .hostedZoneAlbRecord => [.hostedZone, .alb]
  | .certValidationRecord _ => [.certificate, .hostedZone]
  | .certDnsValidation i => [.certificate, .certValidationRecord i]
  | .todoListener => [.alb, .certificate, .todoAppTg]
  | .todoApiListenerRule => [.todoListener, .todoApiTg]
  | .ecrRepo => []
  | .todoAppImage => [.ecrRepo]
  | .todoApiImage => [.ecrRepo]
  | .allowImageAccess => [.ecrRepo]
  | .taskExecutionRolePolicyAttachment => [.ecsTaskInitializationRole, .allowImageAccess]
  | .logGroup => []
  | .todoAppTask => [.ecsTaskInitializationRole, .todoAppImage, .logGroup]
  | .todoTable => []
  | .allowTableAccess => [.todoTable]
  | .ecsTaskRole => []
  | .allowTableAccessPolicyAttachment => [.ecsTaskRole, .allowTableAccess]
  | .todoApiTask =>
      [.ecsTaskInitializationRole, .ecsTaskRole, .todoApiImage, .logGroup, .todoTable]
  | .todoAppService =>
      [.cluster, .todoAppTask, .defaultVpcSubnets, .group, .todoAppTg,
       .httpsRedirectListener, .todoListener]
  | .todoApiService =>
      [.cluster, .todoApiTask, .defaultVpcSubnets, .group, .todoApiTg,
       .httpsRedirectListener, .todoListener, .todoApiListenerRule]
  | .todoAppScalingTarget => [.cluster, .todoAppService]
  | .todoAppScalingPolicy => [.todoAppScalingTarget]
  | .todoApiScalingTarget => [.cluster, .todoApiService]
  | .todoApiScalingPolicy => [.todoApiScalingTarget]

/-- A provisioning order is valid when every resource appears only after all
of its dependencies: this is what any topological order chosen by the engine
satisfies. -/
def validSchedule (s : List Res) : Prop :=
  ∀ i, (h : i < s.length) → ∀ d ∈ deps (s.get ⟨i, h⟩), d ∈ s.take i

/-! The single-service custom-image stage declares the same shape with one
service; the `dependsOn` of its service names both listeners. -/

inductive Res03
  | defaultVpc
  | defaultVpcSubnets
  | group
  | alb
  | atg
  | role
  | rpa
  | cluster
  | webListener
  | certificate
  | hostedZone
  | hostedZoneAlbRecord
  | certValidationRecord (i : Nat)
  | certDnsValidation (i : Nat)
  | secureWebListener
  | ecrRepo
  | websiteImage
  | allowImageAccess
  | taskExecutionRolePolicyAttachment
  | logGroup
  | websiteTask
  | websiteService
deriving DecidableEq

def deps03 : Res03 → List Res03
  | .defaultVpc => []
  | .defaultVpcSubnets => [.defaultVpc]
  | .group => [.defaultVpc]
  | .alb => [.group, .defaultVpcSubnets]
  | .atg => [.defaultVpc]
  | .role => []
  | .rpa => [.role]
  | .cluster => []
  | .webListener => [.alb]
  | .certificate => []
  | .hostedZone => []
  | .hostedZoneAlbRecord => [.hostedZone, .alb]
  | .certValidationRecord _ => [.certificate, .hostedZone]
  | .certDnsValidation i => [.certificate, .certValidationRecord i]
  | .secureWebListener => [.alb, .certificate, .atg]
  | .ecrRepo => []
  | .websiteImage => [.ecrRepo]
  | .allowImageAccess => [.ecrRepo]
  | .taskExecutionRolePolicyAttachment => [.role, .allowImageAccess]
  | .logGroup => []
  | .websiteTask => [.role, .websiteImage, .logGroup]
  | .websiteService =>
      [.cluster, .websiteTask, .defaultVpcSubnets, .group, .atg,
       .webListener, .secureWebListener]

def validSchedule03 (s : List Res03) : Prop :=
  ∀ i, (h : i < s.length) → ∀ d ∈ deps03 (s.get ⟨i, h⟩), d ∈ s.take i

instance (s : List Res) : Decidable (validSchedule s) :=
  inferInstanceAs
    (Decidable (∀ i, (h : i < s.length) → ∀ d ∈ deps (s.get ⟨i, h⟩), d ∈ s.take i))

instance (s : List Res03) : Decidable (validSchedule03 s) :=
  inferInstanceAs
    (Decidable (∀ i, (h : i < s.length) → ∀ d ∈ deps03 (s.get ⟨i, h⟩), d ∈ s.take i))

/-- C7: in every provisioning run (any dependency-respecting order the engine
chooses), each service resource appears only after both listeners — and, for
the path-routed api service, its routing rule — already appear earlier in the
order; likewise for the single-service stage. -/
theorem service_after_listeners_and_rule (s : List Res) (t : List Res03)
    (hs : validSchedule s) (ht : validSchedule03 t) :
    (∀ i, (hi : i < s.length) → s.get ⟨i, hi⟩ = Res.todoApiService →
      Res.httpsRedirectListener ∈ s.take i ∧ Res.todoListener ∈ s.take i ∧
      Res.todoApiListenerRule ∈ s.take i) ∧
    (∀ i, (hi : i < s.length) → s.get ⟨i, hi⟩ = Res.todoAppService →
      Res.httpsRedirectListener ∈ s.take i ∧ Res.todoListener ∈ s.take i) ∧
    (∀ i, (hi : i < t.length) → t.get ⟨i, hi⟩ = Res03.websiteService →
      Res03.webListener ∈ t.take i ∧ Res03.secureWebListener ∈ t.take i) := by
  refine ⟨?_, ?_, ?_⟩
  · intro i hi hval
    have h := hs i hi
    rw [hval] at h
    exact ⟨h _ (by decide), h _ (by decide), h _ (by decide)⟩
  · intro i hi hval
    have h := hs i hi
    rw [hval] at h
    exact ⟨h _ (by decide), h _ (by decide)⟩
  · intro i hi hval
    have h := ht i hi
    rw [hval] at h
    exact ⟨h _ (by decide), h _ (by decide)⟩

/-- A concrete topological order of the multi-service stage (one distinct
validation challenge). -/
def exampleSchedule : List Res :=
  [.defaultVpc, .defaultVpcSubnets, .group, .alb, .todoAppTg, .todoApiTg,
   .ecsTaskInitializationRole, .rpa, .cluster, .httpsRedirectListener,
   .certificate, .hostedZone, .hostedZoneAlbRecord, .certValidationRecord 0,
   .certDnsValidation 0, .todoListener, .todoApiListenerRule, .ecrRepo,
   .todoAppImage, .todoApiImage, .allowImageAccess,
   .taskExecutionRolePolicyAttachment, .logGroup, .todoAppTask, .todoTable,
   .allowTableAccess, .ecsTaskRole, .allowTableAccessPolicyAttachment,
   .todoApiTask, .todoAppService, .todoApiService, .todoAppScalingTarget,
   .todoAppScalingPolicy, .todoApiScalingTarget, .todoApiScalingPolicy]

/-- A concrete topological order of the single-service stage. -/
def exampleSchedule03 : List Res03 :=
  [.defaultVpc, .defaultVpcSubnets, .group, .alb, .atg, .role, .rpa, .cluster,
   .webListener, .certificate, .hostedZone, .hostedZoneAlbRecord,
   .certValidationRecord 0, .certDnsValidation 0, .secureWebListener, .ecrRepo,
   .websiteImage, .allowImageAccess, .taskExecutionRolePolicyAttachment,
   .logGroup, .websiteTask, .websiteService]

theorem service_after_listeners_and_rule_witness :
    validSchedule exampleSchedule ∧ validSchedule03 exampleSchedule03 ∧
    (∀ i, (hi : i < exampleSchedule.length) →
      exampleSchedule.get ⟨i, hi⟩ = Res.todoApiService →
      Res.httpsRedirectListener ∈ exampleSchedule.take i ∧
      Res.todoListener ∈ exampleSchedule.take i ∧
      Res.todoApiListenerRule ∈ exampleSchedule.take i) :=
  ⟨by decide, by decide,
   (service_after_listeners_and_rule exampleSchedule exampleSchedule03
     (by decide) (by decide)).1⟩

/-! ### Claims C5 and C6: certificate gating and the degraded state

A provisioning run is modelled as a transition system over the created
resource set, the set of validated distinct challenges (indices `0..n-1`
of the deduplicator output) and the issuance state of the certificate.
Resource creation respects the reference/`dependsOn` edges in `deps`. -/

structure PState where
  created : List Res
  validated : List Nat
  certIssued : Bool
deriving DecidableEq

def initState : PState := { created := [], validated := [], certIssued := false }

/-- Modelled from the spec: the contracts of the external collaborators
(certificate authority, DNS provider, load balancer) that the source relies
on but that live outside the repository — the certificate request fails when
challenge issuance fails upstream; a validation wait resource completes only
once its challenge is validated; and the load balancer accepts the HTTPS
listener, whose declaration references the certificate, only once that
certificate is issued. -/
def platformReady (failed : Bool) (n : Nat) (s : PState) : Res → Prop
  | .certificate => failed = false
  | .certValidationRecord i => i < n
  | .certDnsValidation i => i ∈ s.validated
  | .todoListener => s.certIssued = true
  | _ => True

/-- One provisioning step: create a resource whose dependencies exist and
whose platform precondition holds, validate a published challenge, or issue
the certificate once every distinct challenge is validated. -/
inductive Step (failed : Bool) (n : Nat) : PState → PState → Prop
  | create (s : PState) (r : Res) :
      (∀ d ∈ deps r, d ∈ s.created) → platformReady failed n s r →
      Step failed n s { s with created := r :: s.created }
  | validate (s : PState) (i : Nat) :
      i < n → Res.certValidationRecord i ∈ s.created →
      Step failed n s { s with validated := i :: s.validated }
  | issue (s : PState) :
      failed = false → (∀ i, i < n → i ∈ s.validated) →
      Step failed n s { s with certIssued := true }

/-- The states a provisioning run with `n` distinct challenges can reach. -/
def Reach (failed : Bool) (n : Nat) (s : PState) : Prop :=
  Relation.ReflTransGen (Step failed n) initState s

theorem reach_invariant (failed : Bool) (n : Nat) (s : PState)
    (h : Reach failed n s) :
    (s.certIssued = true → ∀ i, i < n → i ∈ s.validated) ∧
    (Res.todoListener ∈ s.created → s.certIssued = true) := by
  induction h with
  | refl =>
      exact ⟨fun hci => absurd hci Bool.false_ne_true, fun hmem => absurd hmem (by decide)⟩
  | tail _ hstep ih =>
      cases hstep with
      | create r hdeps hplat =>
          refine ⟨ih.1, ?_⟩
          intro hmem
          rcases List.mem_cons.mp hmem with he | hm
          · rw [← he] at hplat
            exact hplat
          · exact ih.2 hm
      | validate i hi hrec =>
          exact ⟨fun hci j hj => List.mem_cons_of_mem i (ih.1 hci j hj), ih.2⟩
      | issue hf hall =>
          exact ⟨fun _ => hall, fun _ => rfl⟩

/-- C5: the secure (HTTPS, port 443) listener is reachable only after every
distinct validation challenge has been validated — in every run in which some
distinct challenge is still pending, the secure listener is absent. -/
theorem secure_listener_requires_all_validated (failed : Bool) (n : Nat)
    (s : PState) (h : Reach failed n s) (i : Nat) (hi : i < n)
    (hpending : i ∉ s.validated) :
    Res.todoListener ∉ s.created := by
  intro hmem
  exact hpending ((reach_invariant failed n s h).1
    ((reach_invariant failed n s h).2 hmem) i hi)

theorem secure_listener_requires_all_validated_witness :
    Reach false 1 initState ∧ (0 : Nat) < 1 ∧ (0 : Nat) ∉ initState.validated ∧
    Res.todoListener ∉ initState.created :=
  ⟨Relation.ReflTransGen.refl, by decide, by decide,
   secure_listener_requires_all_validated false 1 initState
     Relation.ReflTransGen.refl 0 (by decide) (by decide)⟩

theorem reach_failed_invariant (n : Nat) (s : PState) (h : Reach true n s) :
    s.certIssued = false ∧ Res.todoListener ∉ s.created ∧
    Res.certificate ∉ s.created := by
  induction h with
  | refl => exact ⟨rfl, by decide, by decide⟩
  | tail _ hstep ih =>
      cases hstep with
      | create r hdeps hplat =>
          refine ⟨ih.1, ?_, ?_⟩
          · intro hmem
            rcases List.mem_cons.mp hmem with he | hm
            · rw [← he] at hplat
              simp only [platformReady] at hplat
              rw [ih.1] at hplat
              exact absurd hplat Bool.false_ne_true
            · exact ih.2.1 hm
          · intro hmem
            rcases List.mem_cons.mp hmem with he | hm
            · rw [← he] at hplat
              simp only [platformReady] at hplat
              exact Bool.noConfusion hplat
            · exact ih.2.2 hm
      | validate i hi hrec => exact ih
      | issue hf hall => exact absurd hf (by decide)

/-- The degraded end state of a failed run: network, load balancer and the
plain port-80 redirect listener exist; nothing certificate-dependent does. -/
def degradedState : PState :=
  { created := [Res.httpsRedirectListener, Res.alb, Res.group,
                Res.defaultVpcSubnets, Res.defaultVpc],
    validated := [], certIssued := false }

theorem reach_degraded (n : Nat) : Reach true n degradedState := by
  have s0 : PState := initState
  refine Relation.ReflTransGen.tail (Relation.ReflTransGen.tail
    (Relation.ReflTransGen.tail (Relation.ReflTransGen.tail
      (Relation.ReflTransGen.tail Relation.ReflTransGen.refl
        (Step.create initState Res.defaultVpc (by decide) trivial))
      (Step.create { created := [Res.defaultVpc], validated := [], certIssued := false }
        Res.defaultVpcSubnets (by decide) trivial))
    (Step.create { created := [Res.defaultVpcSubnets, Res.defaultVpc],
                   validated := [], certIssued := false }
      Res.group (by decide) trivial))
    (Step.create { created := [Res.group, Res.defaultVpcSubnets, Res.defaultVpc],
                   validated := [], certIssued := false }
      Res.alb (by decide) trivial))
    (Step.create { created := [Res.alb, Res.group, Res.defaultVpcSubnets, Res.defaultVpc],
                   validated := [], certIssued := false }
      Res.httpsRedirectListener (by decide) trivial)

/-- C6: when certificate challenge issuance fails, the run is an explicit
degraded state, not a crash — in every reachable state the secure listener
(and the certificate) is absent and the certificate is never issued, while a
reachable state exists in which the plain port-80 listener is up. -/
theorem issuance_failure_degraded (n : Nat) (s : PState) (h : Reach true n s) :
    Res.todoListener ∉ s.created ∧ Res.certificate ∉ s.created ∧
    s.certIssued = false ∧
    Reach true n degradedState ∧ Res.httpsRedirectListener ∈ degradedState.created :=
  ⟨(reach_failed_invariant n s h).2.1, (reach_failed_invariant n s h).2.2,
   (reach_failed_invariant n s h).1, reach_degraded n, by decide⟩

theorem issuance_failure_degraded_witness :
    Reach true 1 initState ∧
    (Res.todoListener ∉ initState.created ∧ Res.certificate ∉ initState.created ∧
     initState.certIssued = false ∧
     Reach true 1 degradedState ∧ Res.httpsRedirectListener ∈ degradedState.created) :=
  ⟨Relation.ReflTransGen.refl,
   issuance_failure_degraded 1 initState Relation.ReflTransGen.refl⟩

/-! ### Claim C8: listener default action and routing rule -/

inductive ServiceId
  | todoApp
  | todoApi
deriving DecidableEq

/-- Declaration order of the two services in the source (target group, task,
service and scaling blocks all appear app-first). -/
def declaredServiceOrder : List ServiceId := [ServiceId.todoApp, ServiceId.todoApi]

def primaryService : Option ServiceId := declaredServiceOrder.head?

inductive TargetGroupId
  | todoAppTg
  | todoApiTg
deriving DecidableEq

def targetGroupOf : ServiceId → TargetGroupId
  | .todoApp => .todoAppTg
  | .todoApi => .todoApiTg

structure RedirectConfig where
  statusCode : String
  host : String
  path : String
  protocol : String
deriving DecidableEq

inductive ListenerAction
  | forward (tg : TargetGroupId)
  | redirect (cfg : RedirectConfig)
deriving DecidableEq

structure ListenerConfig where
  port : Nat
  protocol : String
  certificates : List Res
  defaultActions : List ListenerAction
deriving DecidableEq

/-- The plain port-80 listener: an HTTP→HTTPS permanent redirect. -/
def httpsRedirectListenerConfig : ListenerConfig :=
  { port := 80, protocol := "HTTP", certificates := [],
    defaultActions := [ListenerAction.redirect
      { statusCode := "HTTP_301", host := "#\x7bhost\x7d",
        path := "/#\x7bpath\x7d", protocol := "HTTPS" }] }

/-- The secure port-443 listener: certificate attached, default action
forwards to the app target group. -/
def todoListenerConfig : ListenerConfig :=
  { port := 443, protocol := "HTTPS", certificates := [Res.certificate],
    defaultActions := [ListenerAction.forward TargetGroupId.todoAppTg] }

structure ListenerRuleConfig where
  listener : Res
  actions : List ListenerAction
  pathPatternValues : List String
  priority : Nat
deriving DecidableEq

/-- The api routing rule: path pattern `/api/*`, priority 10, forwards to the
api target group. -/
def todoApiListenerRuleConfig : ListenerRuleConfig :=
  { listener := Res.todoListener,
    actions := [ListenerAction.forward TargetGroupId.todoApiTg],
    pathPatternValues := ["/api/*"], priority := 10 }

/-- All listener rules declared in the multi-service stage. -/
def listenerRules : List ListenerRuleConfig := [todoApiListenerRuleConfig]

/-- C8: the default action of the secure listener forwards to the target group of
the primary (first-declared) service, while the non-primary api service is
reached only through its single path routing rule of priority 10 targeting
the api target group (no default action forwards to the api target group). -/
theorem secure_listener_default_and_rule :
    primaryService = some ServiceId.todoApp ∧
    todoListenerConfig.defaultActions =
      [ListenerAction.forward (targetGroupOf ServiceId.todoApp)] ∧
    listenerRules = [todoApiListenerRuleConfig] ∧
    todoApiListenerRuleConfig.priority = 10 ∧
    todoApiListenerRuleConfig.actions =
      [ListenerAction.forward (targetGroupOf ServiceId.todoApi)] ∧
    (todoListenerConfig.defaultActions.all fun a =>
      a != ListenerAction.forward (targetGroupOf ServiceId.todoApi)) = true ∧
    (listenerRules.all fun r =>
      r.actions = [ListenerAction.forward (targetGroupOf ServiceId.todoApi)]) = true := by
  refine ⟨rfl, rfl, rfl, rfl, rfl, ?_, ?_⟩ <;> decide

/-! ### Claim C9: autoscaling attachment -/

structure ScalingTargetConfig where
  maxCapacity : Nat
  minCapacity : Nat
  service : Res
  scalableDimension : String
  serviceNamespace : String
deriving DecidableEq

structure StepAdjustmentConfig where
  metricIntervalUpperBound : Option Int
  metricIntervalLowerBound : Option Int
  scalingAdjustment : Int
deriving DecidableEq

structure StepScalingConfig where
  adjustmentType : String
  cooldown : Nat
  metricAggregationType : String
  stepAdjustments : List StepAdjustmentConfig
deriving DecidableEq

structure ScalingPolicyConfig where
  policyType : String
  target : Res
  stepScalingPolicyConfiguration : StepScalingConfig
deriving DecidableEq

def todoAppScalingTargetConfig : ScalingTargetConfig :=
  { maxCapacity := 10, minCapacity := 1, service := Res.todoAppService,
    scalableDimension := "ecs:service:DesiredCount", serviceNamespace := "ecs" }

def todoApiScalingTargetConfig : ScalingTargetConfig :=
  { maxCapacity := 10, minCapacity := 1, service := Res.todoApiService,
    scalableDimension := "ecs:service:DesiredCount", serviceNamespace := "ecs" }

def downscaleStepConfig : StepScalingConfig :=
  { adjustmentType := "ChangeInCapacity", cooldown := 60,
    metricAggregationType := "Maximum",
    stepAdjustments := [{ metricIntervalUpperBound := some 0,
                          metricIntervalLowerBound := none,
                          scalingAdjustment := -1 }] }

def todoAppScalingPolicyConfig : ScalingPolicyConfig :=
  { policyType := "StepScaling", target := Res.todoAppScalingTarget,
    stepScalingPolicyConfiguration := downscaleStepConfig }

def todoApiScalingPolicyConfig : ScalingPolicyConfig :=
  { policyType := "StepScaling", target := Res.todoApiScalingTarget,
    stepScalingPolicyConfiguration := downscaleStepConfig }

def scalingTargets : List (Res × ScalingTargetConfig) :=
  [(Res.todoAppScalingTarget, todoAppScalingTargetConfig),
   (Res.todoApiScalingTarget, todoApiScalingTargetConfig)]

def scalingPolicies : List (Res × ScalingPolicyConfig) :=
  [(Res.todoAppScalingPolicy, todoAppScalingPolicyConfig),
   (Res.todoApiScalingPolicy, todoApiScalingPolicyConfig)]

/-- C9: per declared service, after the service exists (the scaling target
depends on the service, the policy on the target) exactly one scaling target
bounded by min 1 / max 10 and exactly one step-scaling policy are registered;
the only step of the policy decreases desired count by one when the metric is at
or below the configured upper bound, with cooldown 60; no upscale step. -/
theorem autoscaling_downscale_only_per_service :
    (scalingTargets.filter fun t => t.2.service == Res.todoAppService).length = 1 ∧
    (scalingTargets.filter fun t => t.2.service == Res.todoApiService).length = 1 ∧
    todoAppScalingTargetConfig.minCapacity = 1 ∧
    todoAppScalingTargetConfig.maxCapacity = 10 ∧
    todoApiScalingTargetConfig.minCapacity = 1 ∧
    todoApiScalingTargetConfig.maxCapacity = 10 ∧
    (scalingPolicies.filter fun p => p.2.target == Res.todoAppScalingTarget).length = 1 ∧
    (scalingPolicies.filter fun p => p.2.target == Res.todoApiScalingTarget).length = 1 ∧
    todoAppScalingPolicyConfig.stepScalingPolicyConfiguration = downscaleStepConfig ∧
    todoApiScalingPolicyConfig.stepScalingPolicyConfiguration = downscaleStepConfig ∧
    downscaleStepConfig.cooldown = 60 ∧
    downscaleStepConfig.stepAdjustments =
      [{ metricIntervalUpperBound := some 0, metricIntervalLowerBound := none,
         scalingAdjustment := -1 }] ∧
    (scalingPolicies.all fun p =>
      p.2.stepScalingPolicyConfiguration.stepAdjustments.all fun a =>
        decide (a.scalingAdjustment < 0)) = true ∧
    Res.todoAppService ∈ deps Res.todoAppScalingTarget ∧
    Res.todoAppScalingTarget ∈ deps Res.todoAppScalingPolicy ∧
    Res.todoApiService ∈ deps Res.todoApiScalingTarget ∧
    Res.todoApiScalingTarget ∈ deps Res.todoApiScalingPolicy := by
  refine ⟨?_, ?_, rfl, rfl, rfl, rfl, ?_, ?_, rfl, rfl, rfl, rfl, ?_, ?_, ?_, ?_, ?_⟩ <;>
    decide

/-! ### Claim C4: the Topology Graph Builder rejects duplicate path patterns -/

/-- A declared service, as described by the data model of the specification:
name, image, port, optional health-check path, optional routing path
pattern, desired replica count, autoscaling bounds, environment. -/
structure ServiceSpec where
  name : String
  image : String
  port : Nat
  healthCheckPath : Option String
  pathPattern : Option String
  desiredCount : Nat
  minCapacity : Nat
  maxCapacity : Nat
  environment : List (String × String)
deriving DecidableEq

inductive ConfigurationError
  | duplicatePathPattern
deriving DecidableEq

inductive TopoResource
  | loadBalancer
  | plainListener
  | secureListener
  | targetGroup (service : String)
  | listenerRule (service : String) (pattern : String) (priority : Nat)
  | taskDefinition (service : String)
  | serviceResource (service : String)
deriving DecidableEq

/-- Two distinct declared specs claim the same routing path pattern. -/
def ambiguousRouting (specs : List ServiceSpec) : Bool :=
  specs.any fun s => specs.any fun t =>
    decide (s ≠ t) && s.pathPattern.isSome && decide (s.pathPattern = t.pathPattern)

/-- Modelled from the spec: the generalized Topology Graph Builder (spec §4.2)
is absent from the source, which unrolls it into fixed per-service
declarations; per the spec it must reject a configuration in which two
ServiceSpecs declare the same path pattern before creating any resource, and
otherwise emits per-service target group, routing rule (primary spec gets the
default action instead), task definition and service, with rule priorities
strictly increasing in declaration order. -/
def buildTopology (specs : List ServiceSpec) :
    Except ConfigurationError (List TopoResource) :=
  if ambiguousRouting specs then
    Except.error ConfigurationError.duplicatePathPattern
  else
    Except.ok (TopoResource.loadBalancer :: TopoResource.plainListener ::
      TopoResource.secureListener ::
      specs.enum.flatMap fun p =>
        [TopoResource.targetGroup p.2.name] ++
        (match p.2.pathPattern with
         | some pat => [TopoResource.listenerRule p.2.name pat ((p.1 + 1) * 10)]
         | none => []) ++
        [TopoResource.taskDefinition p.2.name, TopoResource.serviceResource p.2.name])

/-- The resource-creation calls a configuration leads to: none when the
builder rejects it. -/
def requestedResources (specs : List ServiceSpec) : List TopoResource :=
  match buildTopology specs with
  | Except.ok rs => rs
  | Except.error _ => []

/-- C4: for every list of ServiceSpecs in which two distinct specs declare the
same routing path pattern, the builder rejects the configuration with a
`ConfigurationError` and no resource is requested. -/
theorem duplicate_path_pattern_rejected (specs : List ServiceSpec)
    (s t : ServiceSpec) (pat : String) (hs : s ∈ specs) (ht : t ∈ specs)
    (hne : s ≠ t) (hps : s.pathPattern = some pat) (hpt : t.pathPattern = some pat) :
    buildTopology specs = Except.error ConfigurationError.duplicatePathPattern ∧
    requestedResources specs = [] := by
  have hdup : ambiguousRouting specs = true := by
    unfold ambiguousRouting
    rw [List.any_eq_true]
    refine ⟨s, hs, ?_⟩
    rw [List.any_eq_true]
    refine ⟨t, ht, ?_⟩
    rw [hps, hpt]
    simp [hne]
  constructor
  · unfold buildTopology
    rw [if_pos hdup]
  · unfold requestedResources buildTopology
    rw [if_pos hdup]

def dupSpecA : ServiceSpec :=
  { name := "svc-a", image := "img-a", port := 80, healthCheckPath := none,
    pathPattern := some "/api/*", desiredCount := 1, minCapacity := 1,
    maxCapacity := 10, environment := [] }

def dupSpecB : ServiceSpec :=
  { name := "svc-b", image := "img-b", port := 80, healthCheckPath := none,
    pathPattern := some "/api/*", desiredCount := 1, minCapacity := 1,
    maxCapacity := 10, environment := [] }

theorem duplicate_path_pattern_rejected_witness :
    buildTopology [dupSpecA, dupSpecB] =
      Except.error ConfigurationError.duplicatePathPattern ∧
    requestedResources [dupSpecA, dupSpecB] = [] :=
  duplicate_path_pattern_rejected [dupSpecA, dupSpecB] dupSpecA dupSpecB "/api/*"
    (by decide) (by decide) (by decide) (by decide) (by decide)

/-! ### Claim C10: the api health endpoint

`src/todo-api/server.js` mounts `apiRouter` at `/api`; the `GET /` handler
of the router answers 200 with a status-ok JSON body without touching the
table; the other routes answer from the outcome of the table client.
The health check of the api target group probes `/api/`. -/

structure TodoItem where
  id : String
  text : String
  completed : Bool
deriving DecidableEq

inductive DbOutcome (α : Type)
  | ok (val : α)
  | fail
deriving DecidableEq

/-- The outcomes of the DynamoDB document-client calls the server can make;
a value of this type captures any reachability/error state of the table. -/
structure TableBehavior where
  scanItems : DbOutcome (List TodoItem)
  putOutcome : DbOutcome Unit
  updateOutcome : DbOutcome TodoItem

inductive ResponseBody
  | jsonStatusOk
  | jsonItems (items : List TodoItem)
  | jsonTodo (t : TodoItem)
  | jsonError (message : String)
deriving DecidableEq

structure HttpResponse where
  status : Nat
  body : ResponseBody
deriving DecidableEq

inductive Method
  | get
  | post
  | patch
deriving DecidableEq

/-- Character-level prefix test (JavaScript path matching is over the
character sequence of the path). -/
def strStartsWith (s pre : String) : Bool :=
  decide (s.data.take pre.data.length = pre.data)

/-- The api router: routes tried in declaration order on the sub-path below
the `/api` mount (express matches `/` for both an empty and a root sub-path). -/
def apiRoute (db : TableBehavior) (now reqText : String) (m : Method)
    (sub : String) : Option HttpResponse :=
  if m = Method.get ∧ sub = "/todos" then
    some (match db.scanItems with
      | DbOutcome.ok items => { status := 200, body := ResponseBody.jsonItems items }
      | DbOutcome.fail =>
          { status := 500, body := ResponseBody.jsonError "Could not fetch todos" })
  else if m = Method.post ∧ sub = "/todos" then
    some (match db.putOutcome with
      | DbOutcome.ok _ =>
          { status := 201,
            body := ResponseBody.jsonTodo { id := now, text := reqText, completed := false } }
      | DbOutcome.fail =>
          { status := 500, body := ResponseBody.jsonError "Could not add todo" })
  else if m = Method.patch ∧ strStartsWith sub "/todos/" then
    some (match db.updateOutcome with
      | DbOutcome.ok t => { status := 200, body := ResponseBody.jsonTodo t }
      | DbOutcome.fail =>
          { status := 500, body := ResponseBody.jsonError "Could not update todo" })
  else if m = Method.get ∧ (sub = "/" ∨ sub = "") then
    some { status := 200, body := ResponseBody.jsonStatusOk }
  else
    none

/-- The whole server: requests under the `/api` mount go to the router; every
unmatched request falls through to the 404 handler. -/
def handleRequest (db : TableBehavior) (now reqText : String) (m : Method)
    (path : String) : HttpResponse :=
  if path = "/api" ∨ strStartsWith path "/api/" then
    match apiRoute db now reqText m (path.drop 4) with
    | some r => r
    | none => { status := 404, body := ResponseBody.jsonError "Not Found" }
  else
    { status := 404, body := ResponseBody.jsonError "Not Found" }

structure HealthCheckConfig where
  path : String
  interval : Nat
  timeout : Nat
deriving DecidableEq

structure TargetGroupConfig where
  port : Nat
  protocol : String
  targetType : String
  healthCheck : Option HealthCheckConfig
deriving DecidableEq

def todoAppTgConfig : TargetGroupConfig :=
  { port := 80, protocol := "HTTP", targetType := "ip", healthCheck := none }

def todoApiTgConfig : TargetGroupConfig :=
  { port := 80, protocol := "HTTP", targetType := "ip",
    healthCheck := some { path := "/api/", interval := 5, timeout := 2 } }

/-- C10: `GET /api/` — the path that the health check of the api target
group is configured to probe — returns HTTP 200 with the status-ok body for every
table state, so health checks never fail due to table errors. -/
theorem health_endpoint_always_ok (db : TableBehavior) (now reqText : String) :
    todoApiTgConfig.healthCheck =
      some { path := "/api/", interval := 5, timeout := 2 } ∧
    handleRequest db now reqText Method.get "/api/" =
      { status := 200, body := ResponseBody.jsonStatusOk } := by
  exact ⟨rfl, rfl⟩

end AwsEcsMicroservices
